import Mathlib

/-!
Verification of the serde_osc OSC decoder against its specification.

The byte-level decoding engine is embedded shallowly: a byte stream is a
`List Nat` (each entry one byte), reading consumes a prefix and returns the
rest of the list, and every fallible step returns `Except Err`.  The message
deserializer of src/serde_osc/src/de.rs and the bundle visitor of
src/src/de/bundle_visitor.rs are translated definition by definition.
-/

namespace SerdeOsc

/-- The error taxonomy of `serde_osc::de::Error` (src/serde_osc/src/de.rs). -/
inductive Err where
  /-- User provided error message (via `serde::de::Error::custom`). -/
  | message (msg : String)
  /-- Unknown argument type code. -/
  | unknownType (c : Nat)
  /-- Attempt to read more arguments than were in the typestring. -/
  | argMiscount
  /-- 4-byte alignment / padding violation. -/
  | badPadding
  /-- Error from the underlying `std::io::Read` (here: out of bytes). -/
  | ioError
  /-- Invalid UTF-8 in a token (`std::string::FromUtf8Error`). -/
  | strParseError
  deriving DecidableEq, Repr

deriving instance DecidableEq for Except

/-- The big-endian 32-bit word value of four bytes. -/
def be32 (a b c d : Nat) : Nat := ((a * 256 + b) * 256 + c) * 256 + d

/-- `OscDeserializer::read_0term_bytes`, translated as written.  Each
iteration is one `read_exact` of a 4-byte chunk (failing with an io error
when fewer than 4 bytes remain), the count of null bytes in the chunk, the
padding check on the chunk's tail, and the extension of `data` with the
chunk's non-null prefix.  The source's `while true` loop has no `break`, so
the only exits are the two error returns; the `Ok(data)` after the loop is
unreachable and correspondingly no `.ok` branch exists here. -/
def read0TermAux (data : List Nat) : List Nat → Except Err (List Nat × List Nat)
  | a :: b :: c :: d :: rest =>
    let buf := [a, b, c, d]
    let numZeros := (buf.filter (fun x => x == 0)).length
    if (buf.drop (4 - numZeros)).any (fun x => x != 0) then .error .badPadding
    else read0TermAux (data ++ buf.take (4 - numZeros)) rest
  | _ => .error .ioError

/-- `read_0term_bytes` entered with an empty accumulator. -/
def read_0term_bytes (rem : List Nat) : Except Err (List Nat × List Nat) :=
  read0TermAux [] rem

/-- Whether a byte is a UTF-8 continuation byte (0x80..=0xBF). -/
def utf8Cont (c : Nat) : Bool := 0x80 ≤ c && c < 0xC0

/-- Model of the validity check of Rust's `String::from_utf8`, per the
standard UTF-8 table: ASCII, C2..DF two-byte leads, E0..EF three-byte leads
with the E0/ED continuation restrictions, F0..F4 four-byte leads with the
F0/F4 restrictions; continuation bytes in 0x80..=0xBF. -/
def utf8Valid : List Nat → Bool
  | [] => true
  | b :: rest =>
    if b < 0x80 then utf8Valid rest
    else if b < 0xC2 then false
    else if b < 0xE0 then
      match rest with
      | c :: r => utf8Cont c && utf8Valid r
      | [] => false
    else if b < 0xF0 then
      match rest with
      | c :: d :: r =>
        (if b == 0xE0 then decide (0xA0 ≤ c) && decide (c < 0xC0)
         else if b == 0xED then decide (0x80 ≤ c) && decide (c < 0xA0)
         else utf8Cont c) && utf8Cont d && utf8Valid r
      | _ => false
    else if b < 0xF5 then
      match rest with
      | c :: d :: e :: r =>
        (if b == 0xF0 then decide (0x90 ≤ c) && decide (c < 0xC0)
         else if b == 0xF4 then decide (0x80 ≤ c) && decide (c < 0x90)
         else utf8Cont c) && utf8Cont d && utf8Cont e && utf8Valid r
      | _ => false
    else false

/-- `OscDeserializer::parse_str`: a token's bytes, then `String::from_utf8`.
The decoded string is kept as its byte list; only UTF-8 validity is
modelled. -/
def parse_str (rem : List Nat) : Except Err (List Nat × List Nat) :=
  match read_0term_bytes rem with
  | .error e => .error e
  | .ok (bytes, rest) =>
    if utf8Valid bytes then .ok (bytes, rest) else .error .strParseError

/-- `OscDeserializer::parse_typetag`: the token's bytes as the iterator of
type codes (a `vec::IntoIter<u8>`, modelled as the byte list). -/
def parse_typetag (rem : List Nat) : Except Err (List Nat × List Nat) :=
  read_0term_bytes rem

/-- Two's-complement value of a 32-bit word. -/
def toI32 (n : Nat) : Int := if n < 2 ^ 31 then (n : Int) else (n : Int) - 2 ^ 32

/-- `read_i32::<BigEndian>`: exactly four bytes, big-endian, two's
complement; an io error when fewer remain. -/
def parse_i32 (rem : List Nat) : Except Err (Int × List Nat) :=
  match rem with
  | a :: b :: c :: d :: rest => .ok (toI32 (be32 a b c d), rest)
  | _ => .error .ioError

/-- `read_f32::<BigEndian>`: the four bytes are kept as the raw big-endian
bit pattern of the `f32` (the decoder moves the bits through unchanged, so
no floating-point interpretation is needed). -/
def parse_f32 (rem : List Nat) : Except Err (Nat × List Nat) :=
  match rem with
  | a :: b :: c :: d :: rest => .ok (be32 a b c d, rest)
  | _ => .error .ioError

/-- Modelled from the spec: `OscDeserializer::parse_blob` is
`unimplemented!()` in src/serde_osc/src/de.rs, and §4.3/§9 of the
specification give the intended behaviour — read a 4-byte big-endian length
`L`, exactly `L` payload bytes, then `(4 - (L mod 4)) mod 4` pad bytes all
of which must be null (else a padding violation). -/
def parse_blob (rem : List Nat) : Except Err (List Nat × List Nat) :=
  match rem with
  | a :: b :: c :: d :: rest =>
    if rest.length < be32 a b c d then .error .ioError
    else if (rest.drop (be32 a b c d)).length < (4 - be32 a b c d % 4) % 4 then
      .error .ioError
    else if ((rest.drop (be32 a b c d)).take ((4 - be32 a b c d % 4) % 4)).all
        (fun x => x == 0) then
      .ok (rest.take (be32 a b c d),
           (rest.drop (be32 a b c d)).drop ((4 - be32 a b c d % 4) % 4))
    else .error .badPadding
  | _ => .error .ioError

/-- `OscArg` (src/serde_osc/src/de.rs): `f` keeps the raw bit pattern of the
float, `s` the string's UTF-8 byte list. -/
inductive OscArg where
  | i (v : Int)
  | f (bits : Nat)
  | s (bytes : List Nat)
  | b (bytes : List Nat)
  deriving DecidableEq, Repr

/-- The type code each `OscArg` constructor answers to (`b'i'`, `b'f'`,
`b's'`, `b'b'`). -/
def OscArg.tag : OscArg → Nat
  | .i _ => 105
  | .f _ => 102
  | .s _ => 115
  | .b _ => 98

/-- `OscDeserializer::parse_arg`: dispatch on the popped type code; `None`
(exhausted iterator) is an argument-count mismatch, an unmatched code is an
unknown-type error carrying that byte. -/
def parse_arg (typecode : Option Nat) (rem : List Nat) :
    Except Err (OscArg × List Nat) :=
  match typecode with
  | some c =>
    if c = 105 then (parse_i32 rem).map fun p => (OscArg.i p.1, p.2)
    else if c = 102 then (parse_f32 rem).map fun p => (OscArg.f p.1, p.2)
    else if c = 115 then (parse_str rem).map fun p => (OscArg.s p.1, p.2)
    else if c = 98 then (parse_blob rem).map fun p => (OscArg.b p.1, p.2)
    else .error (.unknownType c)
  | none => .error .argMiscount

/-- `State` (src/serde_osc/src/de.rs): the `Arguments` variant carries the
iterator of pending type codes as its list. -/
inductive State where
  | address
  | typestring
  | arguments (tags : List Nat)
  deriving DecidableEq, Repr

/-- `OscDeserializer::parse_next`, with the reader threaded explicitly; an
error return carries no successor state (the Rust call aborts the decode).
`Address`: parse the address string, move to `Typestring`.  `Typestring`:
parse the typetag token, pop its first byte and dispatch it, move to
`Arguments` over the rest.  `Arguments`: pop the next code and dispatch. -/
def parse_next (st : State) (rem : List Nat) :
    Except Err (OscArg × State × List Nat) :=
  match st with
  | .address =>
    match parse_str rem with
    | .error e => .error e
    | .ok (address, rest) => .ok (.s address, .typestring, rest)
  | .typestring =>
    match parse_typetag rem with
    | .error e => .error e
    | .ok (tags, rest) =>
      match parse_arg tags.head? rest with
      | .error e => .error e
      | .ok (parsed, rest2) => .ok (parsed, .arguments tags.tail, rest2)
  | .arguments tags =>
    match parse_arg tags.head? rem with
    | .error e => .error e
    | .ok (parsed, rest2) => .ok (parsed, .arguments tags.tail, rest2)

/-- The deserializer (`OscDeserializer`): the reader and the state. -/
structure OscDeserializer where
  rem : List Nat
  state : State
  deriving DecidableEq, Repr

/-- `OscDeserializer::new`: every decode starts in the `Address` state. -/
def OscDeserializer.new (read : List Nat) : OscDeserializer :=
  ⟨read, .address⟩

/-! ### The token reader with its intended loop termination

§9 of the specification records that the source's `while true` loop in
`read_0term_bytes` lacks a termination condition and declares the §4.2
contract — stop at the first chunk containing a null byte — the intended one.
The following variant differs from `read0TermAux` only in that intended stop;
the per-chunk processing is the same.  It lets the claims about the logic
downstream of the token reader (comma handling, argument dispatch, state
transitions) be exercised on succeeding runs. -/

/-- Modelled from the spec: `read_0term_bytes` with the loop termination of
§4.2/§9 — a chunk containing at least one null byte ends the read, returning
the accumulated non-null bytes. -/
def read0TermStopAux (data : List Nat) : List Nat → Except Err (List Nat × List Nat)
  | a :: b :: c :: d :: rest =>
    let buf := [a, b, c, d]
    let numZeros := (buf.filter (fun x => x == 0)).length
    if (buf.drop (4 - numZeros)).any (fun x => x != 0) then .error .badPadding
    else if numZeros = 0 then read0TermStopAux (data ++ buf) rest
    else .ok (data ++ buf.take (4 - numZeros), rest)
  | _ => .error .ioError

/-- The stopping token reader entered with an empty accumulator. -/
def read0TermStop (rem : List Nat) : Except Err (List Nat × List Nat) :=
  read0TermStopAux [] rem

/-- `parse_str` over the stopping token reader. -/
def parse_str_stop (rem : List Nat) : Except Err (List Nat × List Nat) :=
  match read0TermStop rem with
  | .error e => .error e
  | .ok (bytes, rest) =>
    if utf8Valid bytes then .ok (bytes, rest) else .error .strParseError

/-- `parse_typetag` over the stopping token reader: still nothing but the
token's raw bytes — no comma check, no comma strip (as in the source). -/
def parse_typetag_stop (rem : List Nat) : Except Err (List Nat × List Nat) :=
  read0TermStop rem

/-- `parse_arg` over the stopping token reader (only the `s` case differs). -/
def parse_arg_stop (typecode : Option Nat) (rem : List Nat) :
    Except Err (OscArg × List Nat) :=
  match typecode with
  | some c =>
    if c = 105 then (parse_i32 rem).map fun p => (OscArg.i p.1, p.2)
    else if c = 102 then (parse_f32 rem).map fun p => (OscArg.f p.1, p.2)
    else if c = 115 then (parse_str_stop rem).map fun p => (OscArg.s p.1, p.2)
    else if c = 98 then (parse_blob rem).map fun p => (OscArg.b p.1, p.2)
    else .error (.unknownType c)
  | none => .error .argMiscount

/-- `parse_next` over the stopping token reader; the state handling is the
source's, unchanged. -/
def parse_next_stop (st : State) (rem : List Nat) :
    Except Err (OscArg × State × List Nat) :=
  match st with
  | .address =>
    match parse_str_stop rem with
    | .error e => .error e
    | .ok (address, rest) => .ok (.s address, .typestring, rest)
  | .typestring =>
    match parse_typetag_stop rem with
    | .error e => .error e
    | .ok (tags, rest) =>
      match parse_arg_stop tags.head? rest with
      | .error e => .error e
      | .ok (parsed, rest2) => .ok (parsed, .arguments tags.tail, rest2)
  | .arguments tags =>
    match parse_arg_stop tags.head? rem with
    | .error e => .error e
    | .ok (parsed, rest2) => .ok (parsed, .arguments tags.tail, rest2)

/-! ### The bundle visitor (src/src/de/bundle_visitor.rs)

The bounded region (`Take<R>`) is modelled as its remaining byte list, so
`limit()` is the list's length. -/

/-- `State` of `BundleVisitor`: parsing the time tag or the elements. -/
inductive BState where
  | timeTag
  | elements
  deriving DecidableEq, Repr

/-- `BundleField`: what one `next_element_seed` call hands to the seed. -/
inductive BItem where
  | timeTag (tt : Nat × Nat)
  | elements
  deriving DecidableEq, Repr

/-- Modelled from the spec: `OscReader::parse_timetag` lives in
src/src/de/osc_reader.rs, which is not among the source files; per §4.7 it
reads the time tag as two raw 32-bit big-endian unsigned integers — exactly
8 bytes, no padding. -/
def parse_timetag (rem : List Nat) : Except Err ((Nat × Nat) × List Nat) :=
  match rem with
  | a :: b :: c :: d :: e :: f :: g :: h :: rest =>
    .ok ((be32 a b c d, be32 e f g h), rest)
  | _ => .error .ioError

/-- `BundleVisitor::next_element_seed`: first the `limit() == 0` check for a
clean end of the bundle; otherwise `mem::replace` moves the state to
`Elements` and the replaced state picks the field handed to the seed.  An
error return carries no successor state (the decode aborts). -/
def bundleVisitorNext (rem : List Nat) (st : BState) :
    Except Err (Option BItem × List Nat × BState) :=
  if rem.length = 0 then .ok (none, rem, st)
  else
    match st with
    | .timeTag =>
      match parse_timetag rem with
      | .error e => .error e
      | .ok (tt, rest) => .ok (some (.timeTag tt), rest, .elements)
    | .elements => .ok (some .elements, rem, .elements)

/-- `BundleField::deserialize_any` on the time-tag field: the pair reaches
the visitor as the two-element sequence `[sec, frac]`. -/
def bundleFieldTimeTagSeq (tt : Nat × Nat) : List Nat := [tt.1, tt.2]

/-- `ElemAccessor::next_element_seed`, translated as written: no check of
the remaining count (the source's own `TODO: handle EOF by returning None`),
it always hands the region to the packet deserializer — abstract here, since
pkt_deserializer.rs is not among the source files — and wraps the result in
`Some`. -/
def elemAccessorNext {α : Type} (pkt : List Nat → Except Err (α × List Nat))
    (rem : List Nat) : Except Err (Option α × List Nat) :=
  (pkt rem).map fun vr => (some vr.1, vr.2)

/-! ### The entry points (src/src/de/mod.rs) -/

/-- A `std::io::Cursor` over a byte vector: a fresh one starts at
position 0. -/
structure Cursor where
  vec : List Nat
  pos : Nat
  deriving DecidableEq, Repr

/-- `Cursor::new`. -/
def Cursor.new (v : List Nat) : Cursor := ⟨v, 0⟩

/-- The deserializer the entry points build (`OwnedPktDeserializer`, aliased
`Deserializer` in src/src/de/mod.rs).  Its internals live in
pkt_deserializer.rs, which is not among the source files, so it is kept as
an opaque wrapper around the reader. -/
structure Deserializer (R : Type) where
  read : R

/-- `Deserializer::new`. -/
def Deserializer.new {R : Type} (rd : R) : Deserializer R := ⟨rd⟩

/-- `de::from_read`: build the deserializer over the reader and run the
target type's `deserialize` (abstract: it is a parameter, as the target type
`D` and its serde implementation are the caller's). -/
def from_read {R D : Type} (deserialize : Deserializer R → Except Err D)
    (rd : R) : Except Err D :=
  deserialize (Deserializer.new rd)

/-- `de::from_vec`: documented and implemented as a wrapper around
`from_read` over a fresh cursor. -/
def from_vec {D : Type} (deserialize : Deserializer Cursor → Except Err D)
    (v : List Nat) : Except Err D :=
  from_read deserialize (Cursor.new v)

/-! ## Helper lemmas -/

/-- The source's token-reading loop, translated as written, never returns
successfully: every run ends in one of the two error exits (the `Ok(data)`
after `while true` is dead code). -/
theorem read0TermAux_no_ok (data rem : List Nat) :
    ∃ e : Err, read0TermAux data rem = Except.error e := by
  induction data, rem using read0TermAux.induct with
  | case1 data a b c d rest buf numZeros hbad =>
    exact ⟨.badPadding, by simp [read0TermAux, hbad]⟩
  | case2 data a b c d rest buf numZeros hgood ih =>
    obtain ⟨e, he⟩ := ih
    refine ⟨e, ?_⟩
    simp only [read0TermAux]
    rw [if_neg hgood]
    exact he
  | case3 t data hne =>
    rcases t with _ | ⟨a, _ | ⟨b, _ | ⟨c, _ | ⟨d, rest⟩⟩⟩⟩
    · exact ⟨.ioError, rfl⟩
    · exact ⟨.ioError, rfl⟩
    · exact ⟨.ioError, rfl⟩
    · exact ⟨.ioError, rfl⟩
    · exact absurd rfl (hne a b c d rest)

/-- The stopping token reader decodes every validly padded token: non-null
raw bytes followed by `k` null bytes (`1 ≤ k ≤ 4`) reaching a 4-byte
boundary yield exactly the raw bytes and leave exactly the bytes after the
padding.  (Fuel `n` bounds the length of `raw` for the induction.) -/
theorem read0TermStopAux_reads_token :
    ∀ n raw, raw.length ≤ n → ∀ k data rest,
      (∀ x ∈ raw, x ≠ 0) → 1 ≤ k → k ≤ 4 → (raw.length + k) % 4 = 0 →
      read0TermStopAux data (raw ++ (List.replicate k 0 ++ rest)) =
        .ok (data ++ raw, rest) := by
  intro n
  induction n with
  | zero =>
    intro raw hn k data rest hnn hk1 hk4 hmod
    have hraw : raw = [] := List.length_eq_zero.mp (Nat.le_zero.mp hn)
    subst hraw
    have hk : k = 4 := by simp at hmod; omega
    subst hk
    simp [read0TermStopAux]
  | succ n ih =>
    intro raw hn k data rest hnn hk1 hk4 hmod
    rcases raw with _ | ⟨a, _ | ⟨b, _ | ⟨c, _ | ⟨d, raw'⟩⟩⟩⟩
    · have hk : k = 4 := by simp at hmod; omega
      subst hk
      simp [read0TermStopAux]
    · have ha : (a == 0) = false := by simpa using hnn a (by simp)
      have hk : k = 3 := by simp at hmod; omega
      subst hk
      simp [read0TermStopAux, ha]
    · have ha : (a == 0) = false := by simpa using hnn a (by simp)
      have hb : (b == 0) = false := by simpa using hnn b (by simp)
      have hk : k = 2 := by simp at hmod; omega
      subst hk
      simp [read0TermStopAux, ha, hb]
    · have ha : (a == 0) = false := by simpa using hnn a (by simp)
      have hb : (b == 0) = false := by simpa using hnn b (by simp)
      have hc : (c == 0) = false := by simpa using hnn c (by simp)
      have hk : k = 1 := by simp at hmod; omega
      subst hk
      simp [read0TermStopAux, ha, hb, hc]
    · have ha : (a == 0) = false := by simpa using hnn a (by simp)
      have hb : (b == 0) = false := by simpa using hnn b (by simp)
      have hc : (c == 0) = false := by simpa using hnn c (by simp)
      have hd : (d == 0) = false := by simpa using hnn d (by simp)
      have ih' := ih raw' (by simp at hn ⊢; omega) k (data ++ [a, b, c, d])
        rest (fun x hx => hnn x (by simp [hx])) hk1 hk4
        (by simp at hmod ⊢; omega)
      calc read0TermStopAux data ((a :: b :: c :: d :: raw') ++
              (List.replicate k 0 ++ rest))
          = read0TermStopAux (data ++ [a, b, c, d])
              (raw' ++ (List.replicate k 0 ++ rest)) := by
            simp [read0TermStopAux, ha, hb, hc, hd]
        _ = .ok ((data ++ [a, b, c, d]) ++ raw', rest) := ih'
        _ = .ok (data ++ (a :: b :: c :: d :: raw'), rest) := by simp

/-! ## Claims -/

/-- Claim C1: for every validly padded token, `read_0term_bytes` should stop
consuming chunks at the first 4-byte chunk containing a null byte and return
the raw bytes.  The code does not: its loop never breaks, so it never returns
`Ok` at all — on the validly padded token `"/foo\x00\x00\x00\x00"` it reads
past the terminating chunk and fails with an io error at end of input.  The
reader with the intended termination (`read0TermStop`, modelled from §4.2/§9
of the spec) returns the raw bytes as claimed. -/
theorem C1_token_reader_loop_never_stops :
    (∀ data rem, ∃ e : Err, read0TermAux data rem = Except.error e) ∧
    read_0term_bytes [47, 102, 111, 111, 0, 0, 0, 0] = .error .ioError ∧
    (∀ raw k rest, (∀ x ∈ raw, x ≠ 0) → 1 ≤ k → k ≤ 4 →
      (raw.length + k) % 4 = 0 →
      read0TermStop (raw ++ (List.replicate k 0 ++ rest)) = .ok (raw, rest)) :=
  ⟨read0TermAux_no_ok, by decide,
   fun raw k rest hnn hk1 hk4 hmod => by
     simpa [read0TermStop] using
       read0TermStopAux_reads_token raw.length raw le_rfl k [] rest
         hnn hk1 hk4 hmod⟩

/-- Claim C2: the typestring token's bytes should begin with `,` and the comma
should be discarded before dispatch.  The code neither checks nor strips it:
on the typestring token `",i"` followed by an int payload, `parse_next` in
the `Typestring` state dispatches the comma itself as a type code and fails
with `UnknownType(b',')` (byte 44) under the intended token reader; with the
token reader translated verbatim it fails even earlier (`BadPadding`, the
unterminated loop consuming the payload as a padding chunk). -/
theorem C2_comma_dispatched_as_code :
    parse_next_stop .typestring [44, 105, 0, 0, 0, 0, 0, 42] =
      .error (.unknownType 44) ∧
    parse_next .typestring [44, 105, 0, 0, 0, 0, 0, 42] = .error .badPadding :=
  ⟨by decide, by decide⟩

/-- Claim C3, counterexample: decoding the typestring token `",z"` with the
payload `[0, 0, 0, 1]` does not fail with `UnknownType(b'z')` (byte 122) —
the run fails with `BadPadding` instead (and under the intended token reader
it fails with `UnknownType(b',')`, the undiscarded comma). -/
theorem C3_scenario_z_counterexample :
    (parse_next .typestring [44, 122, 0, 0, 0, 0, 0, 1] =
      .error (.unknownType 122)) = False :=
  eq_false (by decide)

/-- Claim C3, amended: for every type-code byte `c` not in
`{'i', 'f', 's', 'b'}`, `parse_arg` dispatching `c` fails with the
unknown-type error carrying that exact byte; but the end-to-end `",z"`
scenario does not reach that dispatch — with the token reader as written the
decode fails with `BadPadding`, and with the intended reader the undiscarded
leading comma is dispatched first, failing with `UnknownType(b',')`. -/
theorem C3_unknown_code_dispatch :
    (∀ c rem, c ≠ 105 → c ≠ 102 → c ≠ 115 → c ≠ 98 →
      parse_arg (some c) rem = .error (.unknownType c)) ∧
    parse_next .typestring [44, 122, 0, 0, 0, 0, 0, 1] = .error .badPadding ∧
    parse_next_stop .typestring [44, 122, 0, 0, 0, 0, 0, 1] =
      .error (.unknownType 44) := by
  refine ⟨?_, by decide, by decide⟩
  intro c rem h1 h2 h3 h4
  simp [parse_arg, h1, h2, h3, h4]

/-- Claim C3, witness: the amended dispatch law at the concrete unknown code
`b'z'` (byte 122). -/
theorem C3_unknown_code_witness :
    parse_arg (some 122) [0, 0, 0, 1] = .error (.unknownType 122) :=
  C3_unknown_code_dispatch.1 122 [0, 0, 0, 1]
    (by decide) (by decide) (by decide) (by decide)

/-- Claim C4: a blob reads a 4-byte big-endian length `L`, exactly `L`
payload bytes, then `(4 - (L mod 4)) mod 4` padding bytes that must all be
null — the first conjunct returns exactly the payload and leaves exactly the
bytes after the padding; the second shows a pad region of the right length
containing any non-null byte is a padding violation.  (`parse_blob` itself
is modelled from §4.3 of the spec, the source body being
`unimplemented!()`.) -/
theorem C4_blob_layout :
    (∀ a b c d payload rest,
        payload.length = be32 a b c d →
        parse_blob (a :: b :: c :: d ::
            (payload ++ (List.replicate ((4 - be32 a b c d % 4) % 4) 0 ++
              rest))) =
          .ok (payload, rest)) ∧
    (∀ a b c d payload pads rest,
        payload.length = be32 a b c d →
        pads.length = (4 - be32 a b c d % 4) % 4 →
        (∃ p ∈ pads, p ≠ 0) →
        parse_blob (a :: b :: c :: d :: (payload ++ (pads ++ rest))) =
          .error .badPadding) := by
  constructor
  · intro a b c d payload rest hL
    simp only [parse_blob]
    rw [List.drop_left' hL, List.take_left' hL,
        List.take_left' (List.length_replicate _ 0),
        List.drop_left' (List.length_replicate _ 0)]
    have h1 : ¬ ((payload ++ (List.replicate ((4 - be32 a b c d % 4) % 4) 0 ++
        rest)).length < be32 a b c d) := by
      simp [hL]
    have h2 : ¬ ((List.replicate ((4 - be32 a b c d % 4) % 4) 0 ++
        rest).length < (4 - be32 a b c d % 4) % 4) := by
      simp
    have h3 : (List.replicate ((4 - be32 a b c d % 4) % 4) 0).all
        (fun x => x == 0) = true := by
      simp [List.all_eq_true, List.mem_replicate]
    rw [if_neg h1, if_neg h2, if_pos h3]
  · intro a b c d payload pads rest hL hP hbad
    obtain ⟨p, hp, hp0⟩ := hbad
    simp only [parse_blob]
    rw [List.drop_left' hL, List.take_left' hP]
    have h1 : ¬ ((payload ++ (pads ++ rest)).length < be32 a b c d) := by
      simp [hL]
    have h2 : ¬ ((pads ++ rest).length < (4 - be32 a b c d % 4) % 4) := by
      simp [hP]
    have h3 : ¬ (pads.all (fun x => x == 0) = true) := by
      simp only [List.all_eq_true]
      intro hall
      exact absurd (hall p hp) (by simpa using hp0)
    rw [if_neg h1, if_neg h2, if_neg h3]

/-- Claim C4, witness: a blob of length 3 with payload `0xDE 0xAD 0xBE`
consumes exactly 1 null pad byte, a blob of length 4 consumes 0 pad bytes,
and the length-3 blob with the non-null pad byte 5 is a padding
violation. -/
theorem C4_blob_witness :
    parse_blob [0, 0, 0, 3, 222, 173, 190, 0] = .ok ([222, 173, 190], []) ∧
    parse_blob [0, 0, 0, 4, 222, 173, 190, 239, 9] =
      .ok ([222, 173, 190, 239], [9]) ∧
    parse_blob [0, 0, 0, 3, 222, 173, 190, 5] = .error .badPadding :=
  ⟨C4_blob_layout.1 0 0 0 3 [222, 173, 190] [] (by decide),
   C4_blob_layout.1 0 0 0 4 [222, 173, 190, 239] [9] (by decide),
   C4_blob_layout.2 0 0 0 3 [222, 173, 190] [5] [] (by decide) (by decide)
     ⟨5, by decide, by decide⟩⟩

/-- Claim C5: every call that fetches the next bundle item should first check
`remaining == 0` and report a clean end of sequence.  `BundleVisitor` does
(first conjunct), but `ElemAccessor` — the element-decoding loop itself —
never checks the remaining count (the source's own TODO): on an exhausted
region it still hands the region to the packet deserializer and wraps the
outcome in `Some`, never yielding the clean end. -/
theorem C5_elem_accessor_ignores_remaining :
    bundleVisitorNext [] BState.elements = .ok (none, [], BState.elements) ∧
    elemAccessorNext (fun r => Except.ok ((0 : Nat), r)) [] = .ok (some 0, []) ∧
    elemAccessorNext
      (fun _ => (Except.error Err.ioError : Except Err (Nat × List Nat))) [] =
      .error .ioError :=
  ⟨rfl, rfl, rfl⟩

/-- Claim C6: a 4-byte chunk that contains a null byte but has a non-null
byte at or after the position of the first null fails the token read with
the padding-violation error, and no token bytes are returned.  The chunk is
the head chunk of the region; the condition "some byte at or after the first
null is non-null" is stated as the existence of positions `i ≤ j` with the
byte at `i` null and the byte at `j` non-null. -/
theorem C6_padding_violation :
    ∀ a b c d data rest,
      (∃ i j, i ≤ j ∧ j < 4 ∧
        [a, b, c, d].getD i 1 = 0 ∧ [a, b, c, d].getD j 1 ≠ 0) →
      read0TermAux data (a :: b :: c :: d :: rest) = .error .badPadding := by
  intro a b c d data rest h
  obtain ⟨i, j, hij, hj4, hi0, hj0⟩ := h
  have hfire : (([a, b, c, d].drop
      (4 - (([a, b, c, d].filter (fun x => x == 0)).length))).any
        (fun x => x != 0)) = true := by
    interval_cases j <;> interval_cases i <;>
      simp_all <;>
      by_cases ha : a = 0 <;> by_cases hb : b = 0 <;>
        by_cases hc : c = 0 <;> by_cases hd : d = 0 <;>
        simp_all
  simp [read0TermAux, hfire]

/-- Claim C6, witness: the chunk `[120, 0, 7, 0]` (first null at position 1,
non-null byte 7 at position 2) fails the token read with `BadPadding`. -/
theorem C6_witness :
    read0TermAux [] [120, 0, 7, 0] = .error .badPadding :=
  C6_padding_violation 120 0 7 0 [] []
    ⟨1, 2, by decide, by decide, by decide, by decide⟩

/-- Claim C7: popping an argument when the typestring iterator is exhausted
fails with the argument-count mismatch error, whatever bytes remain in the
payload; and when `parse_arg` does succeed, the kind of the produced
argument is exactly the popped type code — the payload bytes never choose
the kind. -/
theorem C7_exhausted_and_code_driven :
    (∀ rem, parse_next (.arguments []) rem = .error .argMiscount) ∧
    (∀ c rem a rem', parse_arg (some c) rem = .ok (a, rem') → a.tag = c) := by
  constructor
  · intro rem; rfl
  · intro c rem a rem' h
    simp only [parse_arg] at h
    split_ifs at h with h1 h2 h3 h4
    · subst h1
      cases hi : parse_i32 rem <;> rw [hi] at h <;> simp [Except.map] at h
      obtain ⟨h5, -⟩ := h
      subst h5
      rfl
    · subst h2
      cases hi : parse_f32 rem <;> rw [hi] at h <;> simp [Except.map] at h
      obtain ⟨h5, -⟩ := h
      subst h5
      rfl
    · subst h3
      cases hi : parse_str rem <;> rw [hi] at h <;> simp [Except.map] at h
      obtain ⟨h5, -⟩ := h
      subst h5
      rfl
    · subst h4
      cases hi : parse_blob rem <;> rw [hi] at h <;> simp [Except.map] at h
      obtain ⟨h5, -⟩ := h
      subst h5
      rfl

/-- Claim C7, witness: a successful `'i'` dispatch at a concrete payload
produces an argument whose kind answers to `'i'` (byte 105), and the
exhausted iterator fails on a concrete payload. -/
theorem C7_witness :
    parse_arg (some 105) [0, 0, 0, 42] = .ok (OscArg.i 42, []) ∧
    (OscArg.i 42).tag = 105 ∧
    parse_next (.arguments []) [9, 9] = .error .argMiscount :=
  ⟨by decide,
   C7_exhausted_and_code_driven.2 105 [0, 0, 0, 42] (OscArg.i 42) [] (by decide),
   C7_exhausted_and_code_driven.1 [9, 9]⟩

/-- Claim C8: the message decoder starts in `Address`; a successful
`parse_next` in `Address` moves the state to `Typestring`, a successful one
in `Typestring` moves it to `Arguments`, and in `Arguments` the state stays
`Arguments` — so the order is strict, no state is skipped and none is
re-entered.  Stated over the decoder with the intended token-reader
termination, so that the transitions are exercised (with the reader as
written no `parse_next` ever succeeds from `Address` or `Typestring`;
claim C1 records that defect). -/
theorem C8_strict_state_order :
    (∀ rem, (OscDeserializer.new rem).state = State.address) ∧
    (∀ rem a st' rem', parse_next_stop .address rem = .ok (a, st', rem') →
      st' = .typestring) ∧
    (∀ rem a st' rem', parse_next_stop .typestring rem = .ok (a, st', rem') →
      ∃ ts, st' = .arguments ts) ∧
    (∀ ts rem a st' rem',
      parse_next_stop (.arguments ts) rem = .ok (a, st', rem') →
      st' = .arguments ts.tail) := by
  refine ⟨fun _ => rfl, ?_, ?_, ?_⟩
  · intro rem a st' rem' h
    simp only [parse_next_stop] at h
    split at h
    · exact absurd h (by simp)
    · simp only [Except.ok.injEq, Prod.mk.injEq] at h
      exact h.2.1.symm
  · intro rem a st' rem' h
    simp only [parse_next_stop] at h
    split at h
    · exact absurd h (by simp)
    · split at h
      · exact absurd h (by simp)
      · simp only [Except.ok.injEq, Prod.mk.injEq] at h
        exact ⟨_, h.2.1.symm⟩
  · intro ts rem a st' rem' h
    simp only [parse_next_stop] at h
    split at h
    · exact absurd h (by simp)
    · simp only [Except.ok.injEq, Prod.mk.injEq] at h
      exact h.2.1.symm

/-- Claim C8, witness: parsing the address token `"/a"` from the start state
succeeds and moves the state to `Typestring`. -/
theorem C8_witness :
    parse_next_stop .address [47, 97, 0, 0] =
      .ok (OscArg.s [47, 97], State.typestring, []) ∧
    State.typestring = State.typestring :=
  ⟨by decide,
   C8_strict_state_order.2.1 [47, 97, 0, 0] (OscArg.s [47, 97])
     State.typestring [] (by decide)⟩

/-- Claim C9: `from_vec` returns exactly what `from_read` returns on a fresh
cursor over the vector — it adds no behaviour of its own. -/
theorem C9_from_vec_delegates :
    ∀ (D : Type) (deserialize : Deserializer Cursor → Except Err D)
      (v : List Nat),
      from_vec deserialize v = from_read deserialize (Cursor.new v) :=
  fun _ _ _ => rfl

/-- Claim C10: a successful `next_element_seed` call yields the time tag only
when the visitor still is in the `TimeTag` state, and such a call leaves the
state `Elements`; once the state is `Elements` it stays `Elements` and no
later yield is a time tag — so the time tag is delivered at most once per
bundle, on the first successful call.  The time tag reaches the visitor as
the 2-element sequence of the two big-endian words. -/
theorem C10_timetag_first_only :
    (∀ rem st out rem' st',
        bundleVisitorNext rem st = .ok (out, rem', st') →
        ((∃ tt, out = some (BItem.timeTag tt)) →
            st = .timeTag ∧ st' = .elements) ∧
        (st = .elements → st' = .elements ∧
          ∀ tt, ¬ out = some (BItem.timeTag tt))) ∧
    (∀ tt, bundleFieldTimeTagSeq tt = [tt.1, tt.2]) := by
  refine ⟨?_, fun _ => rfl⟩
  intro rem st out rem' st' h
  simp only [bundleVisitorNext] at h
  split at h
  · simp only [Except.ok.injEq, Prod.mk.injEq] at h
    obtain ⟨hout, -, hst⟩ := h
    constructor
    · rintro ⟨tt, htt⟩
      rw [← hout] at htt
      simp at htt
    · intro hst'
      refine ⟨by rw [← hst, hst'], ?_⟩
      intro tt htt
      rw [← hout] at htt
      simp at htt
  · cases st with
    | timeTag =>
      cases hp : parse_timetag rem <;> rw [hp] at h
      · exact absurd h (by simp)
      · simp only [Except.ok.injEq, Prod.mk.injEq] at h
        obtain ⟨hout, -, hst⟩ := h
        constructor
        · intro _; exact ⟨rfl, hst.symm⟩
        · intro hcontra; exact absurd hcontra (by simp)
    | elements =>
      simp only [Except.ok.injEq, Prod.mk.injEq] at h
      obtain ⟨hout, -, hst⟩ := h
      constructor
      · rintro ⟨tt, htt⟩
        rw [← hout] at htt
        simp at htt
      · intro _
        refine ⟨hst.symm, ?_⟩
        intro tt htt
        rw [← hout] at htt
        simp at htt

/-- Claim C10, witness: reading the 8-byte time tag `(1, 0)` from the
`TimeTag` state succeeds, comes from the `TimeTag` state and leaves the
state `Elements`. -/
theorem C10_timetag_witness :
    BState.timeTag = BState.timeTag ∧ BState.elements = BState.elements :=
  (C10_timetag_first_only.1 [0, 0, 0, 1, 0, 0, 0, 0] .timeTag
      (some (.timeTag (1, 0))) [] .elements (by decide)).1 ⟨(1, 0), rfl⟩

end SerdeOsc
